import Mathlib

/-!
Verification development for the MQTT 3.1.1 wire-format decoder
(`src/codec/decode.rs` of the mqtt-codec crate).

The decoder is shallowly embedded below.  A byte cursor (`std::io::Cursor`
over a `Bytes` window that the caller has already scoped to exactly
`remaining_length` bytes) is modelled by the list of bytes still unread:
every cursor operation used by the decoder (`remaining`, `get_u8`,
`get_u16_be`, `advance`, slicing) is relative to the current position, so
the pair (buffer, position) is represented by its remaining suffix.
Bytes are natural numbers; wire inputs are lists whose elements are < 256.

Rust operations that can panic (out-of-bounds reads of the underlying
buffer) are modelled with `Option` (`none` = panic) and surface in the
decoder monad as `DResult.panic`, so that panic-freedom is a provable
statement about the embedding.

Bit operations on single-bit or low-mask constants are translated to
arithmetic, which agrees with the Rust bitwise forms on all naturals:
`x & 0x7F = x % 128`, `x & 0x01 = x % 2`, `(x & 0x80) != 0 ↔ x / 128 % 2 = 1`,
`(x & 0b0110) >> 1 = x / 2 % 4`, `(x & 0x18) >> 3 = x / 8 % 4`,
`(x & 0b1000) = 0b1000 ↔ x / 8 % 2 = 1`, and `trailing_zeros ≥ 4` on a `u8`
is `x % 16 = 0`.
-/

namespace Mqtt

/-- Modelled from the spec (§7): the closed error taxonomy of `crate::error::ParseError`
(the error module is not under `src/`).  The string-encoding error variant is
called `Utf8StringError` here. -/
inductive ParseError where
  | InvalidLength
  | InvalidProtocol
  | UnsupportedProtocolLevel
  | ConnectReservedFlagSet
  | InvalidClientId
  | FixedHeaderReservedFlagsMismatch
  | ConnAckReservedFlagSet
  | UnsupportedPacketType
  | Utf8StringError
deriving DecidableEq

/-- Modelled from the spec (§3): QoS with the three legal variants of `crate::proto::QoS`. -/
inductive QoS where
  | AtMostOnce
  | AtLeastOnce
  | ExactlyOnce
deriving DecidableEq

/-- Modelled from the spec (§3, §9): `impl From<u8> for QoS` (`crate::proto`, not under
`src/`).  0, 1, 2 map to the three variants; the spec leaves the behaviour on the
protocol-invalid value 3 open ("passed through unchecked", §4.2) — it is modelled
here as clamping to `ExactlyOnce`, i.e. any value other than 0 or 1 yields
`ExactlyOnce`.  No claim below depends on which non-`AtMostOnce` variant 3 maps to. -/
def QoS.fromNat (n : Nat) : QoS :=
  if n = 0 then .AtMostOnce else if n = 1 then .AtLeastOnce else .ExactlyOnce

/-- Modelled from the spec (§3): `crate::packet::ConnectCode` return codes, with
reserved/unknown values mapped to a catch-all. -/
inductive ConnectCode where
  | ConnectionAccepted
  | UnacceptableProtocolVersion
  | IdentifierRejected
  | ServiceUnavailable
  | BadUserNameOrPassword
  | NotAuthorized
  | Reserved
deriving DecidableEq

/-- Modelled from the spec (§3): `impl From<u8> for ConnectCode` — the six defined
codes 0..5, everything else to the catch-all. -/
def ConnectCode.fromNat (n : Nat) : ConnectCode :=
  if n = 0 then .ConnectionAccepted
  else if n = 1 then .UnacceptableProtocolVersion
  else if n = 2 then .IdentifierRejected
  else if n = 3 then .ServiceUnavailable
  else if n = 4 then .BadUserNameOrPassword
  else if n = 5 then .NotAuthorized
  else .Reserved

/-- Modelled from the spec (§3): one entry of a SubscribeAck status list. -/
inductive SubscribeReturnCode where
  | Success (qos : QoS)
  | Failure
deriving DecidableEq

/-- Modelled from the spec (§3, §6): the protocol identifier carried in a Connect
packet (`Protocol::MQTT(level)`). -/
inductive Protocol where
  | MQTT (level : Nat)
deriving DecidableEq

/-- Modelled from the spec (§3): `crate::packet::LastWill`.  String and byte-string
fields are byte lists (zero-copy slices of the input window). -/
structure LastWill where
  qos : QoS
  retain : Bool
  topic : List Nat
  message : List Nat
deriving DecidableEq

/-- Modelled from the spec (§3): `crate::packet::Connect`. -/
structure Connect where
  protocol : Protocol
  clean_session : Bool
  keep_alive : Nat
  client_id : List Nat
  last_will : Option LastWill
  username : Option (List Nat)
  password : Option (List Nat)
deriving DecidableEq

/-- Modelled from the spec (§3): `crate::packet::Publish`. -/
structure Publish where
  dup : Bool
  qos : QoS
  retain : Bool
  topic : List Nat
  packet_id : Option Nat
  payload : List Nat
deriving DecidableEq

/-- Modelled from the spec (§3): `crate::packet::Packet` — one variant per MQTT
packet type, each owning only the fields that type defines. -/
inductive Packet where
  | Connect (connect : Connect)
  | ConnectAck (session_present : Bool) (return_code : ConnectCode)
  | Publish (publish : Publish)
  | PublishAck (packet_id : Nat)
  | PublishReceived (packet_id : Nat)
  | PublishRelease (packet_id : Nat)
  | PublishComplete (packet_id : Nat)
  | Subscribe (packet_id : Nat) (topic_filters : List (List Nat × QoS))
  | SubscribeAck (packet_id : Nat) (status : List SubscribeReturnCode)
  | Unsubscribe (packet_id : Nat) (topic_filters : List (List Nat))
  | UnsubscribeAck (packet_id : Nat)
  | PingRequest
  | PingResponse
  | Disconnect
deriving DecidableEq

/-- Modelled from the spec (§3): the `FixedHeader` descriptor produced by the
fixed-header decoder (`super::FixedHeader`, not under `src/`). -/
structure FixedHeader where
  packet_type : Nat
  packet_flags : Nat
  remaining_length : Nat
deriving DecidableEq

/-- Modelled from the spec (§4.2 dispatch table): packet-type code constants from
`crate::proto` (not under `src/`). -/
def CONNECT : Nat := 1

def CONNACK : Nat := 2

def PUBLISH : Nat := 3

def PUBACK : Nat := 4

def PUBREC : Nat := 5

def PUBREL : Nat := 6

def PUBCOMP : Nat := 7

def SUBSCRIBE : Nat := 8

def SUBACK : Nat := 9

def UNSUBSCRIBE : Nat := 10

def UNSUBACK : Nat := 11

def PINGREQ : Nat := 12

def PINGRESP : Nat := 13

def DISCONNECT : Nat := 14

/-- Modelled from the spec (§6): the single supported protocol level. -/
def DEFAULT_MQTT_LEVEL : Nat := 4

/-- Modelled from the spec (§4.2 Connect row, MQTT 3.1.1 connect-flags layout):
bit masks of `super::ConnectFlags`.  bit0 reserved, bit1 clean session, bit2 will,
bits 4-3 will QoS, bit5 will retain, bit6 password, bit7 username. -/
def ConnectFlags.CLEAN_SESSION : Nat := 0x02

def ConnectFlags.WILL : Nat := 0x04

def ConnectFlags.WILL_QOS : Nat := 0x18

def ConnectFlags.WILL_RETAIN : Nat := 0x20

def ConnectFlags.PASSWORD : Nat := 0x40

def ConnectFlags.USERNAME : Nat := 0x80

/-- Modelled from the spec: shift amount for the will-QoS bits 4-3 (`WILL_QOS_SHIFT`). -/
def WILL_QOS_SHIFT : Nat := 3

/-- The `check_flag!` macro: `(flags & flag.bits()) == flag.bits()`. -/
def checkFlag (flags mask : Nat) : Bool := flags &&& mask == mask

/-- The 4-byte ASCII literal `"MQTT"`. -/
def mqttName : List Nat := [77, 81, 84, 84]

/-- Outcome of a decoder call: `panic` models a Rust panic (an out-of-bounds
buffer access), `err` a returned `ParseError`, `ok` a successful value. -/
inductive DResult (α : Type) where
  | panic : DResult α
  | err (e : ParseError) : DResult α
  | ok (value : α) : DResult α
deriving DecidableEq

/-- `Buf::remaining` on the cursor: how many bytes are left in the window. -/
def remaining (src : List Nat) : Nat := src.length

/-- `Buf::get_u8`: reads one byte and advances; panics when no byte remains. -/
def get_u8 (src : List Nat) : Option (Nat × List Nat) :=
  if 1 ≤ src.length then some (src.headD 0, src.drop 1) else none

/-- `Buf::get_u16_be`: reads a big-endian u16 and advances; panics when fewer
than 2 bytes remain. -/
def get_u16_be (src : List Nat) : Option (Nat × List Nat) :=
  if 2 ≤ src.length then some (src.headD 0 * 256 + (src.drop 1).headD 0, src.drop 2)
  else none

/-- `src.bytes()[0..n]`: peeks at the next `n` bytes without advancing; the Rust
slice indexing panics when fewer than `n` bytes remain. -/
def peekBytes (src : List Nat) (n : Nat) : Option (List Nat) :=
  if n ≤ src.length then some (src.take n) else none

/-- `Buf::advance(n)`: skips `n` bytes; panics when fewer than `n` remain. -/
def advance (src : List Nat) (n : Nat) : Option (List Nat) :=
  if n ≤ src.length then some (src.drop n) else none

/-- The `take` helper (`decode.rs:357`): zero-copy slice of the next `n` bytes,
advancing the cursor.  `Bytes::slice(pos, pos + n)` panics when `pos + n`
exceeds the buffer length. -/
def take (src : List Nat) (n : Nat) : Option (List Nat × List Nat) :=
  if n ≤ src.length then some (src.take n, src.drop n) else none

/-- `read_u16` (`decode.rs:364`): checked big-endian u16 read —
`InvalidLength` instead of reading past the window. -/
def read_u16 (src : List Nat) : DResult (Nat × List Nat) :=
  if 2 ≤ remaining src then
    match get_u16_be src with
    | some r => .ok r
    | none => .panic
  else .err .InvalidLength

/-- `decode_length_bytes` (`decode.rs:346`): u16 length prefix, then that many
bytes sliced out zero-copy. -/
def decode_length_bytes (src : List Nat) : DResult (List Nat × List Nat) :=
  match read_u16 src with
  | .panic => .panic
  | .err e => .err e
  | .ok (len, src) =>
    if len ≤ remaining src then
      match take src len with
      | some r => .ok r
      | none => .panic
    else .err .InvalidLength

/-- Modelled from the spec (§4.3): well-formed UTF-8 check performed by
`String::try_from` of the external `string` crate — the standard RFC 3629
byte-sequence table, rejecting (not replacing) malformed sequences. -/
def utf8Cont (b : Nat) : Bool := 0x80 ≤ b && b ≤ 0xBF

/-- Modelled from the spec (§4.3): UTF-8 well-formedness of a byte sequence. -/
def utf8Valid : List Nat → Bool
  | [] => true
  | b :: rest =>
    if b ≤ 0x7F then utf8Valid rest
    else if 0xC2 ≤ b && b ≤ 0xDF then
      match rest with
      | c1 :: rest2 => utf8Cont c1 && utf8Valid rest2
      | [] => false
    else if b = 0xE0 then
      match rest with
      | c1 :: c2 :: rest2 => (0xA0 ≤ c1 && c1 ≤ 0xBF) && utf8Cont c2 && utf8Valid rest2
      | _ => false
    else if (0xE1 ≤ b && b ≤ 0xEC) || b = 0xEE || b = 0xEF then
      match rest with
      | c1 :: c2 :: rest2 => utf8Cont c1 && utf8Cont c2 && utf8Valid rest2
      | _ => false
    else if b = 0xED then
      match rest with
      | c1 :: c2 :: rest2 => (0x80 ≤ c1 && c1 ≤ 0x9F) && utf8Cont c2 && utf8Valid rest2
      | _ => false
    else if b = 0xF0 then
      match rest with
      | c1 :: c2 :: c3 :: rest2 =>
        (0x90 ≤ c1 && c1 ≤ 0xBF) && utf8Cont c2 && utf8Cont c3 && utf8Valid rest2
      | _ => false
    else if 0xF1 ≤ b && b ≤ 0xF3 then
      match rest with
      | c1 :: c2 :: c3 :: rest2 =>
        utf8Cont c1 && utf8Cont c2 && utf8Cont c3 && utf8Valid rest2
      | _ => false
    else if b = 0xF4 then
      match rest with
      | c1 :: c2 :: c3 :: rest2 =>
        (0x80 ≤ c1 && c1 ≤ 0x8F) && utf8Cont c2 && utf8Cont c3 && utf8Valid rest2
      | _ => false
    else false

/-- `decode_utf8_str` (`decode.rs:352`): length-prefixed bytes validated as UTF-8. -/
def decode_utf8_str (src : List Nat) : DResult (List Nat × List Nat) :=
  match decode_length_bytes src with
  | .panic => .panic
  | .err e => .err e
  | .ok (bytes, src) =>
    if utf8Valid bytes then .ok (bytes, src) else .err .Utf8StringError

/-- The optional-field pattern of `decode_connect_packet`:
`if check_flag!(flags, F) { Some(dec(src)?) } else { None }`. -/
def optionalField {α : Type} (cond : Bool)
    (dec : List Nat → DResult (α × List Nat)) (src : List Nat) :
    DResult (Option α × List Nat) :=
  if cond then
    match dec src with
    | .panic => .panic
    | .err e => .err e
    | .ok (a, src) => .ok (some a, src)
  else .ok (none, src)

/-- Second half of `decode_connect_packet` (`decode.rs:120-166`), from the
client-id field onwards, with the already-read protocol level, connect-flags
byte and keep-alive value passed in.  (The Rust source is a single function;
it is split here at a point where no control flow crosses.) -/
def decode_connect_fields (level flags keep_alive : Nat) (src : List Nat) :
    DResult (Packet × List Nat) :=
  match decode_utf8_str src with
  | .panic => .panic
  | .err e => .err e
  | .ok (client_id, src) =>
    if client_id = [] ∧ ¬ checkFlag flags ConnectFlags.CLEAN_SESSION = true then
      .err .InvalidClientId
    else
      match optionalField (checkFlag flags ConnectFlags.WILL) decode_utf8_str src with
      | .panic => .panic
      | .err e => .err e
      | .ok (topic, src) =>
        match optionalField (checkFlag flags ConnectFlags.WILL) decode_length_bytes src with
        | .panic => .panic
        | .err e => .err e
        | .ok (message, src) =>
          match optionalField (checkFlag flags ConnectFlags.USERNAME) decode_utf8_str src with
          | .panic => .panic
          | .err e => .err e
          | .ok (username, src) =>
            match optionalField (checkFlag flags ConnectFlags.PASSWORD)
                decode_length_bytes src with
            | .panic => .panic
            | .err e => .err e
            | .ok (password, src) =>
              match topic with
              | some t =>
                match message with
                | some m =>
                  .ok (.Connect
                    { protocol := .MQTT level,
                      clean_session := checkFlag flags ConnectFlags.CLEAN_SESSION,
                      keep_alive := keep_alive,
                      client_id := client_id,
                      last_will := some
                        { qos := QoS.fromNat (flags / 8 % 4),
                          retain := checkFlag flags ConnectFlags.WILL_RETAIN,
                          topic := t,
                          message := m },
                      username := username,
                      password := password }, src)
                | none => .panic
              | none =>
                .ok (.Connect
                  { protocol := .MQTT level,
                    clean_session := checkFlag flags ConnectFlags.CLEAN_SESSION,
                    keep_alive := keep_alive,
                    client_id := client_id,
                    last_will := none,
                    username := username,
                    password := password }, src)

/-- `decode_connect_packet` (`decode.rs:93`). -/
def decode_connect_packet (src : List Nat) (header : FixedHeader) :
    DResult (Packet × List Nat) :=
  if ¬ header.packet_flags % 16 = 0 then .err .FixedHeaderReservedFlagsMismatch
  else if ¬ 10 ≤ remaining src then .err .InvalidLength
  else
    match get_u16_be src with
    | none => .panic
    | some (len, src) =>
      match peekBytes src 4 with
      | none => .panic
      | some name =>
        if ¬ (len = 4 ∧ name = mqttName) then .err .InvalidProtocol
        else
          match advance src 4 with
          | none => .panic
          | some src =>
            match get_u8 src with
            | none => .panic
            | some (level, src) =>
              if ¬ level = DEFAULT_MQTT_LEVEL then .err .UnsupportedProtocolLevel
              else
                match get_u8 src with
                | none => .panic
                | some (flags, src) =>
                  if ¬ flags % 2 = 0 then .err .ConnectReservedFlagSet
                  else
                    match get_u16_be src with
                    | none => .panic
                    | some (keep_alive, src) =>
                      decode_connect_fields level flags keep_alive src

/-- `decode_connect_ack_packet` (`decode.rs:169`). -/
def decode_connect_ack_packet (src : List Nat) (header : FixedHeader) :
    DResult (Packet × List Nat) :=
  if ¬ header.packet_flags % 16 = 0 then .err .FixedHeaderReservedFlagsMismatch
  else if ¬ 2 ≤ remaining src then .err .InvalidLength
  else
    match get_u8 src with
    | none => .panic
    | some (flags, src) =>
      if ¬ flags &&& 0b11111110 = 0 then .err .ConnAckReservedFlagSet
      else
        match get_u8 src with
        | none => .panic
        | some (return_code, src) =>
          .ok (.ConnectAck (checkFlag flags 0x01) (ConnectCode.fromNat return_code), src)

/-- `decode_publish_packet` (`decode.rs:192`).  The QoS comes from flag bits 2-1
(`(packet_flags & 0b0110) >> 1 = packet_flags / 2 % 4`); dup is bit 3, retain bit 0. -/
def decode_publish_packet (src : List Nat) (header : FixedHeader) :
    DResult (Packet × List Nat) :=
  match decode_utf8_str src with
  | .panic => .panic
  | .err e => .err e
  | .ok (topic, src) =>
    if QoS.fromNat (header.packet_flags / 2 % 4) = QoS.AtMostOnce then
      match take src (remaining src) with
      | none => .panic
      | some (payload, src) =>
        .ok (.Publish
          { dup := header.packet_flags / 8 % 2 == 1,
            qos := QoS.fromNat (header.packet_flags / 2 % 4),
            retain := header.packet_flags % 2 == 1,
            topic := topic,
            packet_id := none,
            payload := payload }, src)
    else
      match read_u16 src with
      | .panic => .panic
      | .err e => .err e
      | .ok (pid, src) =>
        match take src (remaining src) with
        | none => .panic
        | some (payload, src) =>
          .ok (.Publish
            { dup := header.packet_flags / 8 % 2 == 1,
              qos := QoS.fromNat (header.packet_flags / 2 % 4),
              retain := header.packet_flags % 2 == 1,
              topic := topic,
              packet_id := some pid,
              payload := payload }, src)

/-- `decode_publish_ack_packet` (`decode.rs:217`). -/
def decode_publish_ack_packet (src : List Nat) (header : FixedHeader) :
    DResult (Packet × List Nat) :=
  if ¬ header.packet_flags % 16 = 0 then .err .FixedHeaderReservedFlagsMismatch
  else
    match read_u16 src with
    | .panic => .panic
    | .err e => .err e
    | .ok (pid, src) => .ok (.PublishAck pid, src)

/-- `decode_publish_rec_packet` (`decode.rs:230`).  Note: the source constructs
`Packet::PublishAck`, not `Packet::PublishReceived`. -/
def decode_publish_rec_packet (src : List Nat) (header : FixedHeader) :
    DResult (Packet × List Nat) :=
  if ¬ header.packet_flags % 16 = 0 then .err .FixedHeaderReservedFlagsMismatch
  else
    match read_u16 src with
    | .panic => .panic
    | .err e => .err e
    | .ok (pid, src) => .ok (.PublishAck pid, src)

/-- `decode_publish_rel_packet` (`decode.rs:243`). -/
def decode_publish_rel_packet (src : List Nat) (header : FixedHeader) :
    DResult (Packet × List Nat) :=
  if ¬ header.packet_flags = 0b0010 then .err .FixedHeaderReservedFlagsMismatch
  else
    match read_u16 src with
    | .panic => .panic
    | .err e => .err e
    | .ok (pid, src) => .ok (.PublishRelease pid, src)

/-- `decode_publish_comp_packet` (`decode.rs:256`).  Note: the source constructs
`Packet::PublishRelease`, not `Packet::PublishComplete`. -/
def decode_publish_comp_packet (src : List Nat) (header : FixedHeader) :
    DResult (Packet × List Nat) :=
  if ¬ header.packet_flags % 16 = 0 then .err .FixedHeaderReservedFlagsMismatch
  else
    match read_u16 src with
    | .panic => .panic
    | .err e => .err e
    | .ok (pid, src) => .ok (.PublishRelease pid, src)

/-- The `while src.remaining() > 0` loop of `decode_subscribe_packet`
(`decode.rs:279`): topic filter plus requested-QoS byte (`get_u8() & 0x03`),
repeated until the window is exhausted. -/
def subscribe_filters (src : List Nat) : DResult (List (List Nat × QoS) × List Nat) :=
  if 0 < remaining src then
    match hts : decode_utf8_str src with
    | .panic => .panic
    | .err e => .err e
    | .ok (topic, src1) =>
      if 1 ≤ remaining src1 then
        match hu8 : get_u8 src1 with
        | none => .panic
        | some (b, src2) =>
          match subscribe_filters src2 with
          | .panic => .panic
          | .err e => .err e
          | .ok (rest, src3) => .ok ((topic, QoS.fromNat (b % 4)) :: rest, src3)
      else .err .InvalidLength
  else .ok ([], src)
termination_by remaining src
decreasing_by
  simp only [remaining] at *
  have key : ∀ s t s1 : List Nat, decode_utf8_str s = DResult.ok (t, s1) →
      s1.length + 2 ≤ s.length := by
    intro s t s1 h
    unfold decode_utf8_str at h
    cases hlb : decode_length_bytes s with
    | panic => rw [hlb] at h; exact absurd h (by simp)
    | err e => rw [hlb] at h; exact absurd h (by simp)
    | ok r =>
      obtain ⟨bs, s2⟩ := r
      rw [hlb] at h
      have hs2 : s2 = s1 := by
        by_cases hv : utf8Valid bs = true
        · simp [hv] at h; exact h.2
        · simp [hv] at h
      rw [← hs2]
      unfold decode_length_bytes at hlb
      cases hru : read_u16 s with
      | panic => rw [hru] at hlb; exact absurd hlb (by simp)
      | err e => rw [hru] at hlb; exact absurd hlb (by simp)
      | ok r2 =>
        obtain ⟨len, s0⟩ := r2
        rw [hru] at hlb
        simp only [remaining] at hlb
        by_cases hlen : len ≤ s0.length
        · rw [if_pos hlen] at hlb
          unfold take at hlb
          rw [if_pos hlen] at hlb
          simp only [DResult.ok.injEq, Prod.mk.injEq] at hlb
          have hs0 : s0.length ≤ s.length - 2 ∧ 2 ≤ s.length := by
            unfold read_u16 get_u16_be remaining at hru
            by_cases h2 : 2 ≤ s.length
            · rw [if_pos h2, if_pos h2] at hru
              simp only [DResult.ok.injEq, Prod.mk.injEq] at hru
              refine ⟨?_, h2⟩
              rw [← hru.2]
              simp
            · rw [if_neg h2] at hru; exact absurd hru (by simp)
          have hle : s2.length ≤ s0.length := by
            rw [← hlb.2]; simp
          omega
        · rw [if_neg hlen] at hlb; exact absurd hlb (by simp)
  have h1 := key src topic src1 hts
  have h2 : src2.length + 1 = src1.length := by
    unfold get_u8 at hu8
    by_cases hg : 1 ≤ src1.length
    · rw [if_pos hg] at hu8
      simp only [Option.some.injEq, Prod.mk.injEq] at hu8
      rw [← hu8.2]
      simp
      omega
    · rw [if_neg hg] at hu8; exact absurd hu8 (by simp)
  omega

/-- `decode_subscribe_packet` (`decode.rs:269`). -/
def decode_subscribe_packet (src : List Nat) (header : FixedHeader) :
    DResult (Packet × List Nat) :=
  if ¬ header.packet_flags = 0b0010 then .err .FixedHeaderReservedFlagsMismatch
  else
    match read_u16 src with
    | .panic => .panic
    | .err e => .err e
    | .ok (pid, src) =>
      match subscribe_filters src with
      | .panic => .panic
      | .err e => .err e
      | .ok (topic_filters, src) => .ok (.Subscribe pid topic_filters, src)

/-- `decode_subscribe_ack_packet` (`decode.rs:292`): after the packet id, the
iterator consumes every remaining byte of the window in order, mapping
`0x80` to `Failure` and anything else to `Success` of its low 2 bits. -/
def decode_subscribe_ack_packet (src : List Nat) (header : FixedHeader) :
    DResult (Packet × List Nat) :=
  if ¬ header.packet_flags % 16 = 0 then .err .FixedHeaderReservedFlagsMismatch
  else
    match read_u16 src with
    | .panic => .panic
    | .err e => .err e
    | .ok (pid, src) =>
      .ok (.SubscribeAck pid
        (src.map (fun code =>
          if code = 0x80 then SubscribeReturnCode.Failure
          else SubscribeReturnCode.Success (QoS.fromNat (code % 4)))), [])

/-- The `while src.remaining() > 0` loop of `decode_unsubscribe_packet`
(`decode.rs:324`): topic filters until the window is exhausted. -/
def unsubscribe_filters (src : List Nat) : DResult (List (List Nat) × List Nat) :=
  if 0 < remaining src then
    match hts : decode_utf8_str src with
    | .panic => .panic
    | .err e => .err e
    | .ok (topic, src1) =>
      match unsubscribe_filters src1 with
      | .panic => .panic
      | .err e => .err e
      | .ok (rest, src2) => .ok (topic :: rest, src2)
  else .ok ([], src)
termination_by remaining src
decreasing_by
  simp only [remaining] at *
  have key : ∀ s t s1 : List Nat, decode_utf8_str s = DResult.ok (t, s1) →
      s1.length + 2 ≤ s.length := by
    intro s t s1 h
    unfold decode_utf8_str at h
    cases hlb : decode_length_bytes s with
    | panic => rw [hlb] at h; exact absurd h (by simp)
    | err e => rw [hlb] at h; exact absurd h (by simp)
    | ok r =>
      obtain ⟨bs, s2⟩ := r
      rw [hlb] at h
      have hs2 : s2 = s1 := by
        by_cases hv : utf8Valid bs = true
        · simp [hv] at h; exact h.2
        · simp [hv] at h
      rw [← hs2]
      unfold decode_length_bytes at hlb
      cases hru : read_u16 s with
      | panic => rw [hru] at hlb; exact absurd hlb (by simp)
      | err e => rw [hru] at hlb; exact absurd hlb (by simp)
      | ok r2 =>
        obtain ⟨len, s0⟩ := r2
        rw [hru] at hlb
        simp only [remaining] at hlb
        by_cases hlen : len ≤ s0.length
        · rw [if_pos hlen] at hlb
          unfold take at hlb
          rw [if_pos hlen] at hlb
          simp only [DResult.ok.injEq, Prod.mk.injEq] at hlb
          have hs0 : s0.length ≤ s.length - 2 ∧ 2 ≤ s.length := by
            unfold read_u16 get_u16_be remaining at hru
            by_cases h2 : 2 ≤ s.length
            · rw [if_pos h2, if_pos h2] at hru
              simp only [DResult.ok.injEq, Prod.mk.injEq] at hru
              refine ⟨?_, h2⟩
              rw [← hru.2]
              simp
            · rw [if_neg h2] at hru; exact absurd hru (by simp)
          have hle : s2.length ≤ s0.length := by
            rw [← hlb.2]; simp
          omega
        · rw [if_neg hlen] at hlb; exact absurd hlb (by simp)
  have h1 := key src topic src1 hts
  omega

/-- `decode_unsubscribe_packet` (`decode.rs:314`). -/
def decode_unsubscribe_packet (src : List Nat) (header : FixedHeader) :
    DResult (Packet × List Nat) :=
  if ¬ header.packet_flags = 0b0010 then .err .FixedHeaderReservedFlagsMismatch
  else
    match read_u16 src with
    | .panic => .panic
    | .err e => .err e
    | .ok (pid, src) =>
      match unsubscribe_filters src with
      | .panic => .panic
      | .err e => .err e
      | .ok (topic_filters, src) => .ok (.Unsubscribe pid topic_filters, src)

/-- `decode_unsubscribe_ack_packet` (`decode.rs:333`). -/
def decode_unsubscribe_ack_packet (src : List Nat) (header : FixedHeader) :
    DResult (Packet × List Nat) :=
  if ¬ header.packet_flags % 16 = 0 then .err .FixedHeaderReservedFlagsMismatch
  else
    match read_u16 src with
    | .panic => .panic
    | .err e => .err e
    | .ok (pid, src) => .ok (.UnsubscribeAck pid, src)

/-- `read_packet` (`decode.rs:31`): dispatch on `header.packet_type`. -/
def read_packet (src : List Nat) (header : FixedHeader) : DResult (Packet × List Nat) :=
  if header.packet_type = CONNECT then decode_connect_packet src header
  else if header.packet_type = CONNACK then decode_connect_ack_packet src header
  else if header.packet_type = PUBLISH then decode_publish_packet src header
  else if header.packet_type = PUBACK then decode_publish_ack_packet src header
  else if header.packet_type = PUBREC then decode_publish_rec_packet src header
  else if header.packet_type = PUBREL then decode_publish_rel_packet src header
  else if header.packet_type = PUBCOMP then decode_publish_comp_packet src header
  else if header.packet_type = SUBSCRIBE then decode_subscribe_packet src header
  else if header.packet_type = SUBACK then decode_subscribe_ack_packet src header
  else if header.packet_type = UNSUBSCRIBE then decode_unsubscribe_packet src header
  else if header.packet_type = UNSUBACK then decode_unsubscribe_ack_packet src header
  else if header.packet_type = PINGREQ then
    if ¬ header.packet_flags % 16 = 0 then .err .FixedHeaderReservedFlagsMismatch
    else .ok (.PingRequest, src)
  else if header.packet_type = PINGRESP then
    if ¬ header.packet_flags % 16 = 0 then .err .FixedHeaderReservedFlagsMismatch
    else .ok (.PingResponse, src)
  else if header.packet_type = DISCONNECT then
    if ¬ header.packet_flags % 16 = 0 then .err .FixedHeaderReservedFlagsMismatch
    else .ok (.Disconnect, src)
  else .err .UnsupportedPacketType

/-- The `scan` of `decode_variable_length` (`decode.rs:73`), returning the last
yielded `(value, index + 1, continuation)` triple.  State starts at `(0, true)`;
a byte is examined only while the previous byte had its continuation bit set
and the index is at most 3; each examined byte contributes its low 7 bits
(`x & 0x7F = x % 128`) at weight `128 ^ index`, and the continuation flag
becomes its high bit (`x & 0x80 != 0 ↔ x / 128 % 2 = 1`). -/
def vlScanLast : List Nat → Nat → Nat → Bool → Option (Nat × Nat × Bool)
  | [], _, _, _ => none
  | x :: rest, idx, acc, more =>
    if ¬ more = true ∨ idx > 3 then none
    else
      let acc1 := acc + x % 128 * 128 ^ idx
      let more1 := x / 128 % 2 == 1
      match vlScanLast rest (idx + 1) acc1 more1 with
      | some r => some r
      | none => some (acc1, idx + 1, more1)

/-- `decode_variable_length` (`decode.rs:72`). -/
def decode_variable_length (src : List Nat) :
    Except ParseError (Option (Nat × Nat)) :=
  match vlScanLast src 0 0 true with
  | some (len, consumed, more) =>
    if more = false ∨ consumed < 4 then .ok (some (len, consumed))
    else .error .InvalidLength
  | none => .ok none

/-- Spec-side value of a variable-length encoding (§8): the sum of each byte's
low 7 bits weighted by `128 ^ index`. -/
def specVlValue : List Nat → Nat
  | [] => 0
  | b :: rest => b % 128 + 128 * specVlValue rest

/-- Spec-side wire image of a length-prefixed field: big-endian u16 length,
then the bytes. -/
def encodeLenPrefixed (s : List Nat) : List Nat :=
  s.length / 256 :: s.length % 256 :: s

/-- Spec-side wire image of one Subscribe payload entry: length-prefixed topic
filter followed by the requested-QoS byte. -/
def encodeSubEntry (e : List Nat × Nat) : List Nat :=
  encodeLenPrefixed e.1 ++ [e.2]

/-- Spec-side SubscribeAck status byte mapping: `0x80` is `Failure`, any other
byte is `Success` of its low 2 bits. -/
def specSubAckStatus (code : Nat) : SubscribeReturnCode :=
  if code = 0x80 then .Failure else .Success (QoS.fromNat (code % 4))

theorem get_u8_cons (a : Nat) (l : List Nat) : get_u8 (a :: l) = some (a, l) := by
  simp [get_u8]

theorem get_u16_be_cons (a b : Nat) (l : List Nat) :
    get_u16_be (a :: b :: l) = some (a * 256 + b, l) := by
  simp [get_u16_be]

theorem read_u16_cons (a b : Nat) (l : List Nat) :
    read_u16 (a :: b :: l) = .ok (a * 256 + b, l) := by
  rw [read_u16, if_pos (by simp [remaining]), get_u16_be_cons]

theorem read_u16_ok {src : List Nat} {v : Nat} {rest : List Nat}
    (h : read_u16 src = .ok (v, rest)) :
    2 ≤ src.length ∧ v = src.headD 0 * 256 + (src.drop 1).headD 0 ∧
      rest = src.drop 2 := by
  unfold read_u16 get_u16_be remaining at h
  by_cases h2 : 2 ≤ src.length
  · rw [if_pos h2, if_pos h2] at h
    simp only [DResult.ok.injEq, Prod.mk.injEq] at h
    exact ⟨h2, h.1.symm, h.2.symm⟩
  · rw [if_neg h2] at h
    exact absurd h (by simp)

theorem read_u16_ne_panic (src : List Nat) : read_u16 src ≠ .panic := by
  unfold read_u16 get_u16_be remaining
  by_cases h2 : 2 ≤ src.length
  · rw [if_pos h2, if_pos h2]
    simp
  · rw [if_neg h2]
    simp

theorem decode_length_bytes_ok {src bs rest : List Nat}
    (h : decode_length_bytes src = .ok (bs, rest)) :
    2 + bs.length ≤ src.length ∧ bs = (src.drop 2).take bs.length ∧
      rest = src.drop (2 + bs.length) := by
  unfold decode_length_bytes at h
  cases hru : read_u16 src with
  | panic => rw [hru] at h; exact absurd h (by simp)
  | err e => rw [hru] at h; exact absurd h (by simp)
  | ok r =>
    obtain ⟨len, s0⟩ := r
    rw [hru] at h
    obtain ⟨h2, _, hs0⟩ := read_u16_ok hru
    simp only [remaining] at h
    by_cases hlen : len ≤ s0.length
    · rw [if_pos hlen] at h
      unfold take at h
      rw [if_pos hlen] at h
      simp only [DResult.ok.injEq, Prod.mk.injEq] at h
      have hbs : bs.length = len := by
        rw [← h.1]
        simp [hlen]
      subst hs0
      refine ⟨?_, ?_, ?_⟩
      · have := List.length_drop 2 src
        omega
      · rw [hbs]
        exact h.1.symm
      · rw [hbs, ← h.2, List.drop_drop]
    · rw [if_neg hlen] at h
      exact absurd h (by simp)

theorem decode_length_bytes_ne_panic (src : List Nat) :
    decode_length_bytes src ≠ .panic := by
  unfold decode_length_bytes
  cases hru : read_u16 src with
  | panic => exact absurd hru (read_u16_ne_panic src)
  | err e => simp
  | ok r =>
    obtain ⟨len, s0⟩ := r
    simp only [remaining]
    by_cases hlen : len ≤ s0.length
    · rw [if_pos hlen]
      unfold take
      rw [if_pos hlen]
      simp
    · rw [if_neg hlen]
      simp

theorem decode_utf8_str_ok {src bs rest : List Nat}
    (h : decode_utf8_str src = .ok (bs, rest)) :
    2 + bs.length ≤ src.length ∧ bs = (src.drop 2).take bs.length ∧
      rest = src.drop (2 + bs.length) ∧ utf8Valid bs = true := by
  unfold decode_utf8_str at h
  cases hlb : decode_length_bytes src with
  | panic => rw [hlb] at h; exact absurd h (by simp)
  | err e => rw [hlb] at h; exact absurd h (by simp)
  | ok r =>
    obtain ⟨bs0, s0⟩ := r
    rw [hlb] at h
    simp only [] at h
    by_cases hv : utf8Valid bs0 = true
    · rw [if_pos hv] at h
      simp only [DResult.ok.injEq, Prod.mk.injEq] at h
      obtain ⟨rfl, rfl⟩ := h
      exact ⟨(decode_length_bytes_ok hlb).1, (decode_length_bytes_ok hlb).2.1,
        (decode_length_bytes_ok hlb).2.2, hv⟩
    · rw [if_neg hv] at h
      exact absurd h (by simp)

theorem decode_utf8_str_ne_panic (src : List Nat) : decode_utf8_str src ≠ .panic := by
  unfold decode_utf8_str
  cases hlb : decode_length_bytes src with
  | panic => exact absurd hlb (decode_length_bytes_ne_panic src)
  | err e => simp
  | ok r =>
    obtain ⟨bs0, s0⟩ := r
    by_cases hv : utf8Valid bs0 = true
    · simp [hv]
    · simp [hv]

theorem optionalField_ne_panic {α : Type} (cond : Bool)
    (dec : List Nat → DResult (α × List Nat)) (src : List Nat)
    (hdec : ∀ s, dec s ≠ .panic) :
    optionalField cond dec src ≠ .panic := by
  unfold optionalField
  cases cond with
  | false => simp
  | true =>
    simp only [if_pos]
    cases hd : dec src with
    | panic => exact absurd hd (hdec src)
    | err e => simp
    | ok r => obtain ⟨a, s⟩ := r; simp

theorem peekBytes4_cons (a b c d : Nat) (l : List Nat) :
    peekBytes (a :: b :: c :: d :: l) 4 = some [a, b, c, d] := by
  unfold peekBytes
  rw [if_pos (by simp only [List.length_cons]; omega)]
  rfl

theorem advance4_cons (a b c d : Nat) (l : List Nat) :
    advance (a :: b :: c :: d :: l) 4 = some l := by
  unfold advance
  rw [if_pos (by simp only [List.length_cons]; omega)]
  rfl

theorem decode_connect_packet_cons (b0 b1 m0 m1 m2 m3 lvl fl k0 k1 : Nat)
    (rest : List Nat) (header : FixedHeader) (hfl : header.packet_flags % 16 = 0) :
    decode_connect_packet (b0 :: b1 :: m0 :: m1 :: m2 :: m3 :: lvl :: fl :: k0 :: k1 :: rest)
        header =
      if ¬ (b0 * 256 + b1 = 4 ∧ [m0, m1, m2, m3] = mqttName) then .err .InvalidProtocol
      else if ¬ lvl = DEFAULT_MQTT_LEVEL then .err .UnsupportedProtocolLevel
      else if ¬ fl % 2 = 0 then .err .ConnectReservedFlagSet
      else decode_connect_fields lvl fl (k0 * 256 + k1) rest := by
  unfold decode_connect_packet
  simp only [get_u16_be_cons, peekBytes4_cons, advance4_cons, get_u8_cons]
  rw [if_neg (by simp [hfl]), if_neg (by simp only [remaining, List.length_cons]; omega)]

theorem fromNat_eq_atMostOnce (n : Nat) : QoS.fromNat n = QoS.AtMostOnce ↔ n = 0 := by
  unfold QoS.fromNat
  by_cases h0 : n = 0
  · simp [h0]
  · by_cases h1 : n = 1 <;> simp [h0, h1]

set_option maxRecDepth 4096 in
theorem checkFlag_arith : ∀ f, f < 256 →
    (checkFlag f 2 = true ↔ f / 2 % 2 = 1) ∧
    (checkFlag f 4 = true ↔ f / 4 % 2 = 1) ∧
    (checkFlag f 32 = true ↔ f / 32 % 2 = 1) ∧
    (checkFlag f 64 = true ↔ f / 64 % 2 = 1) ∧
    (checkFlag f 128 = true ↔ f / 128 % 2 = 1) := by
  decide

/-- Claim C1: `read_packet` dispatches on `header.packet_type` per the table, with
type 5 producing the `PublishReceived` variant and type 7 the `PublishComplete`
variant.  REFUTED on the code: for a well-formed 2-byte body, a type-5 header
yields `Packet::PublishAck` (`decode_publish_rec_packet` constructs the wrong
variant) and a type-7 header yields `Packet::PublishRelease`
(`decode_publish_comp_packet` likewise) — contradicting the dispatch table and
the crate's own tests, which expect `PublishReceived` and `PublishComplete`. -/
theorem C1_pubrec_pubcomp_wrong_variant :
    read_packet [0x43, 0x21] ⟨PUBREC, 0, 2⟩ = .ok (.PublishAck 0x4321, []) ∧
    read_packet [0x43, 0x21] ⟨PUBCOMP, 0, 2⟩ = .ok (.PublishRelease 0x4321, []) ∧
    Packet.PublishAck 0x4321 ≠ Packet.PublishReceived 0x4321 ∧
    Packet.PublishRelease 0x4321 ≠ Packet.PublishComplete 0x4321 := by
  refine ⟨rfl, rfl, by simp, by simp⟩

/-- Claim C2: `decode_variable_length` returns `Ok(None)` when the slice ends
before a terminating byte with fewer than 4 bytes examined, in particular on
`b"\xff\xff\xff"`.  REFUTED on the code: the incomplete-input case is only
reached for the empty slice; on `[0xff, 0xff, 0xff]` the scan's last yield has
the continuation flag still set with 3 bytes consumed, the guard
`!more || consumed < 4` passes, and the function returns
`Ok(Some((2097151, 3)))` — contradicting the crate's own unit test, which
asserts `Ok(None)`. -/
theorem C2_incomplete_not_none :
    decode_variable_length [0xff, 0xff, 0xff] = .ok (some (2097151, 3)) ∧
    (Except.ok (some (2097151, 3)) : Except ParseError (Option (Nat × Nat))) ≠
      .ok none := by
  refine ⟨rfl, by simp⟩

/-- Claim C3: for every byte slice of 1-4 bytes forming a valid terminated
variable-length encoding (every byte before the last has its high bit set, the
last byte has its high bit clear), `decode_variable_length` returns
`Ok(Some((value, consumed)))` where `value` is the sum of each byte's low 7 bits
weighted by `128 ^ index` (`specVlValue`) and `consumed` is the number of bytes
up to and including the terminator, i.e. the whole slice. -/
theorem C3_valid_encoding_value (bs : List Nat) (h1 : 1 ≤ bs.length)
    (h4 : bs.length ≤ 4) (hbytes : ∀ b ∈ bs, b < 256)
    (hcont : ∀ i, i < bs.length - 1 → 128 ≤ bs.getD i 0)
    (hterm : bs.getD (bs.length - 1) 0 < 128) :
    decode_variable_length bs = .ok (some (specVlValue bs, bs.length)) := by
  rcases bs with _ | ⟨a, _ | ⟨b, _ | ⟨c, _ | ⟨d, rest⟩⟩⟩⟩
  · simp at h1
  · have hta : a < 128 := by simpa using hterm
    have ha0 : a / 128 % 2 = 0 := by omega
    simp [decode_variable_length, vlScanLast, specVlValue, ha0] <;> omega
  · have ha : 128 ≤ a := by simpa using hcont 0 (by simp)
    have ha' : a < 256 := hbytes a (by simp)
    have htb : b < 128 := by simpa using hterm
    have ha1 : a / 128 % 2 = 1 := by omega
    have hb0 : b / 128 % 2 = 0 := by omega
    simp [decode_variable_length, vlScanLast, specVlValue, ha1, hb0] <;> omega
  · have ha : 128 ≤ a := by simpa using hcont 0 (by simp)
    have ha' : a < 256 := hbytes a (by simp)
    have hb : 128 ≤ b := by simpa using hcont 1 (by simp)
    have hb' : b < 256 := hbytes b (by simp)
    have htc : c < 128 := by simpa using hterm
    have ha1 : a / 128 % 2 = 1 := by omega
    have hb1 : b / 128 % 2 = 1 := by omega
    have hc0 : c / 128 % 2 = 0 := by omega
    simp [decode_variable_length, vlScanLast, specVlValue, ha1, hb1, hc0] <;> omega
  · have hrest : rest = [] := by
      simp only [List.length_cons] at h4
      exact List.eq_nil_of_length_eq_zero (by omega)
    subst hrest
    have ha : 128 ≤ a := by simpa using hcont 0 (by simp)
    have ha' : a < 256 := hbytes a (by simp)
    have hb : 128 ≤ b := by simpa using hcont 1 (by simp)
    have hb' : b < 256 := hbytes b (by simp)
    have hc : 128 ≤ c := by simpa using hcont 2 (by simp)
    have hc' : c < 256 := hbytes c (by simp)
    have htd : d < 128 := by simpa using hterm
    have ha1 : a / 128 % 2 = 1 := by omega
    have hb1 : b / 128 % 2 = 1 := by omega
    have hc1 : c / 128 % 2 = 1 := by omega
    have hd0 : d / 128 % 2 = 0 := by omega
    simp [decode_variable_length, vlScanLast, specVlValue, ha1, hb1, hc1, hd0] <;> omega

/-- Witness for C3 at the concrete encoding `b"\x80\x01"`, whose decoded value
is 128 with 2 bytes consumed. -/
theorem C3_valid_encoding_value_witness :
    decode_variable_length [0x80, 0x01] = .ok (some (128, 2)) := by
  have h := C3_valid_encoding_value [0x80, 0x01] (by decide) (by decide) (by decide)
    (by decide) (by decide)
  norm_num [specVlValue] at h
  exact h

/-- Counterexample to claim C4 as stated: a Connect body whose protocol-name
length field is not 4 does NOT always fail with `InvalidProtocol` — for the
4-byte body `00 02 "MQ"` the decoder's up-front `remaining >= 10` check fires
first and it fails with `InvalidLength` instead. -/
theorem C4_short_body_counterexample :
    decode_connect_packet [0x00, 0x02, 77, 81] ⟨CONNECT, 0, 4⟩ = .err .InvalidLength ∧
    ParseError.InvalidLength ≠ ParseError.InvalidProtocol := by
  refine ⟨rfl, by simp⟩

/-- Claim C4 (amended): for every Connect packet body with at least 10 bytes
(written as ten leading bytes plus a rest; shorter bodies fail with
`InvalidLength` before any field check) and reserved header flags zero: a
protocol-name field that is not a u16 length 4 followed by the literal "MQTT"
fails with `InvalidProtocol`; with a correct name, a protocol-level byte other
than 4 fails with `UnsupportedProtocolLevel`; with correct name and level, a
set bit 0 of the connect-flags byte fails with `ConnectReservedFlagSet`. -/
theorem C4_connect_error_order (b0 b1 m0 m1 m2 m3 lvl fl k0 k1 : Nat)
    (rest : List Nat) (header : FixedHeader)
    (hfl : header.packet_flags % 16 = 0) :
    (¬ (b0 * 256 + b1 = 4 ∧ [m0, m1, m2, m3] = mqttName) →
      decode_connect_packet (b0 :: b1 :: m0 :: m1 :: m2 :: m3 :: lvl :: fl :: k0 :: k1 :: rest)
        header = .err .InvalidProtocol) ∧
    ((b0 * 256 + b1 = 4 ∧ [m0, m1, m2, m3] = mqttName) → ¬ lvl = DEFAULT_MQTT_LEVEL →
      decode_connect_packet (b0 :: b1 :: m0 :: m1 :: m2 :: m3 :: lvl :: fl :: k0 :: k1 :: rest)
        header = .err .UnsupportedProtocolLevel) ∧
    ((b0 * 256 + b1 = 4 ∧ [m0, m1, m2, m3] = mqttName) → lvl = DEFAULT_MQTT_LEVEL →
      fl % 2 = 1 →
      decode_connect_packet (b0 :: b1 :: m0 :: m1 :: m2 :: m3 :: lvl :: fl :: k0 :: k1 :: rest)
        header = .err .ConnectReservedFlagSet) := by
  refine ⟨?_, ?_, ?_⟩
  · intro hn
    rw [decode_connect_packet_cons _ _ _ _ _ _ _ _ _ _ _ _ hfl, if_pos hn]
  · intro hn hl
    rw [decode_connect_packet_cons _ _ _ _ _ _ _ _ _ _ _ _ hfl,
      if_neg (not_not_intro hn), if_pos hl]
  · intro hn hl hf
    rw [decode_connect_packet_cons _ _ _ _ _ _ _ _ _ _ _ _ hfl,
      if_neg (not_not_intro hn), if_neg (by simp [hl]), if_pos (by omega)]

/-- Witness for C4 at a concrete 10-byte Connect body with a correct protocol
name and an unsupported level byte 3. -/
theorem C4_connect_error_order_witness :
    decode_connect_packet [0, 4, 77, 81, 84, 84, 3, 0, 0, 60] ⟨1, 0, 10⟩ =
      .err .UnsupportedProtocolLevel :=
  (C4_connect_error_order 0 4 77 81 84 84 3 0 0 60 [] ⟨1, 0, 10⟩ rfl).2.1
    (by decide) (by decide)

theorem optionalField_ok {α : Type} {cond : Bool}
    {dec : List Nat → DResult (α × List Nat)} {src : List Nat}
    {a : Option α} {s1 : List Nat}
    (h : optionalField cond dec src = .ok (a, s1)) :
    (a.isSome = true ↔ cond = true) ∧ (cond = false → a = none ∧ s1 = src) ∧
      (∀ x, a = some x → dec src = .ok (x, s1)) := by
  unfold optionalField at h
  cases cond with
  | false =>
    simp only [Bool.false_eq_true, if_false, DResult.ok.injEq, Prod.mk.injEq] at h
    obtain ⟨rfl, rfl⟩ := h
    simp
  | true =>
    simp only [if_true] at h
    cases hd : dec src with
    | panic => rw [hd] at h; exact absurd h (by simp)
    | err e => rw [hd] at h; exact absurd h (by simp)
    | ok r =>
      obtain ⟨x, s2⟩ := r
      rw [hd] at h
      simp only [DResult.ok.injEq, Prod.mk.injEq] at h
      obtain ⟨rfl, rfl⟩ := h
      refine ⟨by simp, by simp, ?_⟩
      intro y hy
      simp only [Option.some.injEq] at hy
      rw [← hy]

theorem decode_connect_fields_ok {level flags keep_alive : Nat} {src : List Nat}
    {p : Packet} {restc : List Nat}
    (h : decode_connect_fields level flags keep_alive src = .ok (p, restc)) :
    ∃ c s1, p = .Connect c ∧ decode_utf8_str src = .ok (c.client_id, s1) ∧
      (c.last_will.isSome = true ↔ checkFlag flags ConnectFlags.WILL = true) ∧
      (c.username.isSome = true ↔ checkFlag flags ConnectFlags.USERNAME = true) ∧
      (c.password.isSome = true ↔ checkFlag flags ConnectFlags.PASSWORD = true) ∧
      (∀ lw, c.last_will = some lw →
        lw.qos = QoS.fromNat (flags / 8 % 4) ∧
        ∃ s2 s3, decode_utf8_str s1 = .ok (lw.topic, s2) ∧
          decode_length_bytes s2 = .ok (lw.message, s3)) := by
  unfold decode_connect_fields at h
  cases hcid : decode_utf8_str src with
  | panic => exact absurd hcid (decode_utf8_str_ne_panic src)
  | err e => rw [hcid] at h; exact absurd h (by simp)
  | ok rcid =>
    obtain ⟨cid, s1⟩ := rcid
    rw [hcid] at h
    simp only [] at h
    by_cases hguard : cid = [] ∧ ¬ checkFlag flags ConnectFlags.CLEAN_SESSION = true
    · rw [if_pos hguard] at h; exact absurd h (by simp)
    · rw [if_neg hguard] at h
      cases htp : optionalField (checkFlag flags ConnectFlags.WILL) decode_utf8_str s1 with
      | panic => exact absurd htp (optionalField_ne_panic _ _ _ decode_utf8_str_ne_panic)
      | err e => rw [htp] at h; exact absurd h (by simp)
      | ok rtp =>
        obtain ⟨topic, s2⟩ := rtp
        rw [htp] at h
        simp only [] at h
        cases hmsg : optionalField (checkFlag flags ConnectFlags.WILL)
            decode_length_bytes s2 with
        | panic => exact absurd hmsg (optionalField_ne_panic _ _ _ decode_length_bytes_ne_panic)
        | err e => rw [hmsg] at h; exact absurd h (by simp)
        | ok rmsg =>
          obtain ⟨message, s3⟩ := rmsg
          rw [hmsg] at h
          simp only [] at h
          cases hun : optionalField (checkFlag flags ConnectFlags.USERNAME)
              decode_utf8_str s3 with
          | panic => exact absurd hun (optionalField_ne_panic _ _ _ decode_utf8_str_ne_panic)
          | err e => rw [hun] at h; exact absurd h (by simp)
          | ok run =>
            obtain ⟨username, s4⟩ := run
            rw [hun] at h
            simp only [] at h
            cases hpw : optionalField (checkFlag flags ConnectFlags.PASSWORD)
                decode_length_bytes s4 with
            | panic =>
              exact absurd hpw (optionalField_ne_panic _ _ _ decode_length_bytes_ne_panic)
            | err e => rw [hpw] at h; exact absurd h (by simp)
            | ok rpw =>
              obtain ⟨password, s5⟩ := rpw
              rw [hpw] at h
              simp only [] at h
              obtain ⟨ho1, ho2, ho3⟩ := optionalField_ok htp
              obtain ⟨hm1, hm2, hm3⟩ := optionalField_ok hmsg
              obtain ⟨hu1, _, _⟩ := optionalField_ok hun
              obtain ⟨hq1, _, _⟩ := optionalField_ok hpw
              cases topic with
              | some t =>
                have hcond : checkFlag flags ConnectFlags.WILL = true := ho1.mp (by simp)
                cases message with
                | none =>
                  simp at h
                | some m =>
                  simp only [DResult.ok.injEq, Prod.mk.injEq] at h
                  obtain ⟨hpp, hrr⟩ := h
                  refine ⟨_, s1, hpp.symm, rfl, ?_, ?_, ?_, ?_⟩
                  · simp [hcond]
                  · simpa using hu1
                  · simpa using hq1
                  · intro lw hlw
                    simp only [Option.some.injEq] at hlw
                    rw [← hlw]
                    refine ⟨rfl, s2, s3, ?_, ?_⟩
                    · exact ho3 t rfl
                    · exact hm3 m rfl
              | none =>
                simp only [DResult.ok.injEq, Prod.mk.injEq] at h
                obtain ⟨hpp, hrr⟩ := h
                have hcond : checkFlag flags ConnectFlags.WILL = false := by
                  cases hc : checkFlag flags ConnectFlags.WILL with
                  | false => rfl
                  | true =>
                    have := ho1.mpr hc
                    simp at this
                refine ⟨_, s1, hpp.symm, rfl, ?_, ?_, ?_, ?_⟩
                · simp [hcond]
                · simpa using hu1
                · simpa using hq1
                · intro lw hlw
                  simp at hlw

/-- Claim C5: for every successfully decoded Connect packet (written with its
10 fixed leading bytes explicit, `fl` being the connect-flags byte), `last_will`
is present iff the WILL bit (bit 2) was set, `username` iff the USERNAME bit
(bit 7), `password` iff the PASSWORD bit (bit 6); when a last will is present
its QoS comes from bits 4-3 of the flags byte, and its topic and message are
the next two length-prefixed fields after the client id, in wire order. -/
theorem C5_connect_optional_fields (b0 b1 m0 m1 m2 m3 lvl fl k0 k1 : Nat)
    (rest : List Nat) (header : FixedHeader) (c : Connect) (restc : List Nat)
    (hfl256 : fl < 256)
    (h : decode_connect_packet
        (b0 :: b1 :: m0 :: m1 :: m2 :: m3 :: lvl :: fl :: k0 :: k1 :: rest) header =
      .ok (.Connect c, restc)) :
    (c.last_will.isSome = true ↔ fl / 4 % 2 = 1) ∧
    (c.username.isSome = true ↔ fl / 128 % 2 = 1) ∧
    (c.password.isSome = true ↔ fl / 64 % 2 = 1) ∧
    (∀ lw, c.last_will = some lw →
      lw.qos = QoS.fromNat (fl / 8 % 4) ∧
      ∃ s1 s2, decode_utf8_str (rest.drop (2 + c.client_id.length)) = .ok (lw.topic, s1) ∧
        decode_length_bytes s1 = .ok (lw.message, s2)) := by
  by_cases hfl : header.packet_flags % 16 = 0
  · rw [decode_connect_packet_cons _ _ _ _ _ _ _ _ _ _ _ _ hfl] at h
    by_cases hname : b0 * 256 + b1 = 4 ∧ [m0, m1, m2, m3] = mqttName
    · rw [if_neg (not_not_intro hname)] at h
      by_cases hlvl : lvl = DEFAULT_MQTT_LEVEL
      · rw [if_neg (not_not_intro hlvl)] at h
        by_cases hres : fl % 2 = 0
        · rw [if_neg (not_not_intro hres)] at h
          obtain ⟨c1, s1, hpc, hcid, hw, hu, hq, hlw⟩ := decode_connect_fields_ok h
          have hcc : c = c1 := by simpa using hpc
          subst hcc
          simp only [ConnectFlags.WILL, ConnectFlags.USERNAME, ConnectFlags.PASSWORD]
            at hw hu hq
          obtain ⟨hA2, hA4, hA32, hA64, hA128⟩ := checkFlag_arith fl hfl256
          refine ⟨hw.trans hA4, hu.trans hA128, hq.trans hA64, ?_⟩
          intro lw hl
          obtain ⟨hqos, s2, s3, ht, hm⟩ := hlw lw hl
          refine ⟨hqos, s2, s3, ?_, hm⟩
          have hdrop := (decode_utf8_str_ok hcid).2.2.1
          rw [← hdrop]
          exact ht
        · rw [if_pos hres] at h
          exact absurd h (by simp)
      · rw [if_pos hlvl] at h
        exact absurd h (by simp)
    · rw [if_pos hname] at h
      exact absurd h (by simp)
  · unfold decode_connect_packet at h
    rw [if_pos hfl] at h
    exact absurd h (by simp)

/-- Witness for C5 at the spec's will-flag test vector (connect-flags byte
`0x14`: WILL set, will-QoS bits 4-3 = 0b10). -/
theorem C5_connect_optional_fields_witness :
    (Connect.last_will
      { protocol := .MQTT 4, clean_session := false, keep_alive := 60,
        client_id := [49, 50, 51, 52, 53],
        last_will := some
          { qos := .ExactlyOnce, retain := false,
            topic := [116, 111, 112, 105, 99],
            message := [109, 101, 115, 115, 97, 103, 101] },
        username := none, password := none }).isSome = true ↔
      (0x14 : Nat) / 4 % 2 = 1 :=
  (C5_connect_optional_fields 0 4 77 81 84 84 4 0x14 0 60
    [0, 5, 49, 50, 51, 52, 53, 0, 5, 116, 111, 112, 105, 99, 0, 7,
     109, 101, 115, 115, 97, 103, 101] ⟨1, 0, 32⟩
    { protocol := .MQTT 4, clean_session := false, keep_alive := 60,
      client_id := [49, 50, 51, 52, 53],
      last_will := some
        { qos := .ExactlyOnce, retain := false,
          topic := [116, 111, 112, 105, 99],
          message := [109, 101, 115, 115, 97, 103, 101] },
      username := none, password := none } [] (by decide) (by decide)).1

/-- Claim C6: for every header whose type requires zero flags (Connect,
ConnectAck, PublishAck, PublishReceived, PublishComplete, SubscribeAck,
UnsubscribeAck, PingRequest, PingResponse, Disconnect) with nonzero 4-bit
flags, and every header whose type requires flags 0b0010 exactly
(PublishRelease, Subscribe, Unsubscribe) with different flags, `read_packet`
returns `FixedHeaderReservedFlagsMismatch` — for every payload, i.e. before any
payload byte is read. -/
theorem C6_reserved_flags_checked_first (header : FixedHeader) (src : List Nat)
    (hlt : header.packet_flags < 16) :
    (header.packet_type ∈
        [CONNECT, CONNACK, PUBACK, PUBREC, PUBCOMP, SUBACK, UNSUBACK,
          PINGREQ, PINGRESP, DISCONNECT] →
      header.packet_flags ≠ 0 →
      read_packet src header = .err .FixedHeaderReservedFlagsMismatch) ∧
    (header.packet_type ∈ [PUBREL, SUBSCRIBE, UNSUBSCRIBE] →
      header.packet_flags ≠ 0b0010 →
      read_packet src header = .err .FixedHeaderReservedFlagsMismatch) := by
  obtain ⟨pt, fl, rl⟩ := header
  simp only [FixedHeader.packet_type, FixedHeader.packet_flags] at *
  constructor
  · intro hmem hne
    have hfl : ¬ fl % 16 = 0 := by omega
    simp only [List.mem_cons, List.not_mem_nil, or_false] at hmem
    rcases hmem with rfl | rfl | rfl | rfl | rfl | rfl | rfl | rfl | rfl | rfl <;>
      simp [read_packet, CONNECT, CONNACK, PUBLISH, PUBACK, PUBREC, PUBREL, PUBCOMP,
        SUBSCRIBE, SUBACK, UNSUBSCRIBE, UNSUBACK, PINGREQ, PINGRESP, DISCONNECT,
        decode_connect_packet, decode_connect_ack_packet, decode_publish_ack_packet,
        decode_publish_rec_packet, decode_publish_comp_packet,
        decode_subscribe_ack_packet, decode_unsubscribe_ack_packet, hfl]
  · intro hmem hne
    simp only [List.mem_cons, List.not_mem_nil, or_false] at hmem
    rcases hmem with rfl | rfl | rfl <;>
      simp [read_packet, CONNECT, CONNACK, PUBLISH, PUBACK, PUBREC, PUBREL, PUBCOMP,
        SUBSCRIBE, SUBACK, UNSUBSCRIBE, UNSUBACK, PINGREQ, PINGRESP, DISCONNECT,
        decode_publish_rel_packet, decode_subscribe_packet,
        decode_unsubscribe_packet, hne]

/-- Witness for C6: a PublishAck header with flags 1 and a Subscribe header with
flags 0 both fail with `FixedHeaderReservedFlagsMismatch` on arbitrary payloads. -/
theorem C6_reserved_flags_checked_first_witness :
    read_packet [0x43, 0x21, 9] ⟨4, 1, 3⟩ = .err .FixedHeaderReservedFlagsMismatch ∧
    read_packet [0x43, 0x21] ⟨8, 0, 2⟩ = .err .FixedHeaderReservedFlagsMismatch :=
  ⟨(C6_reserved_flags_checked_first ⟨4, 1, 3⟩ [0x43, 0x21, 9] (by decide)).1
      (by decide) (by decide),
    (C6_reserved_flags_checked_first ⟨8, 0, 2⟩ [0x43, 0x21] (by decide)).2
      (by decide) (by decide)⟩

/-- Claim C7: for every Publish body, after the length-prefixed topic, the
decoded `packet_id` is `None` exactly when the QoS from flag bits 2-1
(`packet_flags / 2 % 4`) is 0 (AtMostOnce), and is the next big-endian u16
otherwise; fewer than 2 bytes after the topic in the QoS 1/2 case yields
`InvalidLength`; the payload is exactly all remaining bytes of the window after
those fields, zero-copy with no length prefix, leaving the window empty. -/
theorem C7_publish_packet_id_payload (src : List Nat) (header : FixedHeader) :
    (∀ p restc, decode_publish_packet src header = .ok (.Publish p, restc) →
      (p.packet_id = none ↔ header.packet_flags / 2 % 4 = 0) ∧
      ∃ s1, decode_utf8_str src = .ok (p.topic, s1) ∧
        p.packet_id = (if header.packet_flags / 2 % 4 = 0 then none
          else some (s1.headD 0 * 256 + (s1.drop 1).headD 0)) ∧
        p.payload = (if header.packet_flags / 2 % 4 = 0 then s1 else s1.drop 2) ∧
        restc = []) ∧
    (∀ t s1, decode_utf8_str src = .ok (t, s1) → ¬ header.packet_flags / 2 % 4 = 0 →
      s1.length < 2 →
      decode_publish_packet src header = .err .InvalidLength) := by
  constructor
  · intro p restc h
    unfold decode_publish_packet at h
    cases hts : decode_utf8_str src with
    | panic => exact absurd hts (decode_utf8_str_ne_panic src)
    | err e => rw [hts] at h; exact absurd h (by simp)
    | ok r =>
      obtain ⟨t, s1⟩ := r
      rw [hts] at h
      simp only [] at h
      have htake : take s1 (remaining s1) = some (s1, []) := by
        simp [take, remaining]
      by_cases hq : QoS.fromNat (header.packet_flags / 2 % 4) = QoS.AtMostOnce
      · rw [if_pos hq] at h
        rw [htake] at h
        simp only [DResult.ok.injEq, Prod.mk.injEq] at h
        obtain ⟨hp, hrest⟩ := h
        have h0 : header.packet_flags / 2 % 4 = 0 := (fromNat_eq_atMostOnce _).mp hq
        simp only [Packet.Publish.injEq] at hp
        rw [← hp]
        refine ⟨by simp [h0], s1, rfl, by simp [h0], by simp [h0], hrest.symm⟩
      · rw [if_neg hq] at h
        have h0 : ¬ header.packet_flags / 2 % 4 = 0 := by
          intro hc
          exact hq ((fromNat_eq_atMostOnce _).mpr hc)
        cases hr : read_u16 s1 with
        | panic => exact absurd hr (read_u16_ne_panic s1)
        | err e => rw [hr] at h; exact absurd h (by simp)
        | ok r2 =>
          obtain ⟨pid, s2⟩ := r2
          rw [hr] at h
          simp only [] at h
          have htake2 : take s2 (remaining s2) = some (s2, []) := by
            simp [take, remaining]
          rw [htake2] at h
          simp only [DResult.ok.injEq, Prod.mk.injEq] at h
          obtain ⟨hp, hrest⟩ := h
          simp only [Packet.Publish.injEq] at hp
          rw [← hp]
          obtain ⟨_, hval, hdrop⟩ := read_u16_ok hr
          refine ⟨by simp [h0], s1, rfl, ?_, ?_, hrest.symm⟩
          · rw [if_neg h0, hval]
          · rw [if_neg h0, hdrop]
  · intro t s1 ht hnq hlen
    unfold decode_publish_packet
    rw [ht]
    simp only []
    rw [if_neg (fun hc => hnq ((fromNat_eq_atMostOnce _).mp hc))]
    have hr : read_u16 s1 = .err .InvalidLength := by
      unfold read_u16
      rw [if_neg (by simp only [remaining]; omega)]
    rw [hr]

/-- Witness for C7 at the crate's QoS-2 Publish test vector (flags 0b1101:
dup set, QoS 2, retain set): the decoded packet carries packet id 0x4321. -/
theorem C7_publish_packet_id_payload_witness :
    (Publish.packet_id
      { dup := true, qos := .ExactlyOnce, retain := true,
        topic := [116, 111, 112, 105, 99], packet_id := some 0x4321,
        payload := [100, 97, 116, 97] }) = none ↔ (0xd : Nat) / 2 % 4 = 0 :=
  ((C7_publish_packet_id_payload
      [0x00, 0x05, 116, 111, 112, 105, 99, 0x43, 0x21, 100, 97, 116, 97]
      ⟨3, 0xd, 13⟩).1
    { dup := true, qos := .ExactlyOnce, retain := true,
      topic := [116, 111, 112, 105, 99], packet_id := some 0x4321,
      payload := [100, 97, 116, 97] } [] (by decide)).1

theorem decode_utf8_str_encode (t rest : List Nat) (hlen : t.length < 65536)
    (hv : utf8Valid t = true) :
    decode_utf8_str (encodeLenPrefixed t ++ rest) = .ok (t, rest) := by
  have hval : t.length / 256 * 256 + t.length % 256 = t.length := by omega
  unfold decode_utf8_str decode_length_bytes
  simp only [encodeLenPrefixed, List.cons_append, read_u16_cons, remaining, hval]
  rw [if_pos (by simp)]
  unfold take
  rw [if_pos (by simp)]
  rw [List.take_left, List.drop_left]
  simp [hv]

theorem subscribe_filters_encode (entries : List (List Nat × Nat))
    (h : ∀ e ∈ entries, e.1.length < 65536 ∧ utf8Valid e.1 = true) :
    subscribe_filters (entries.map encodeSubEntry).flatten =
      .ok (entries.map (fun e => (e.1, QoS.fromNat (e.2 % 4))), []) := by
  induction entries with
  | nil =>
    rw [subscribe_filters]
    simp [remaining]
  | cons e es ih =>
    obtain ⟨hlen, hv⟩ := h e (by simp)
    have hrest := ih (fun x hx => h x (by simp [hx]))
    have hdec2 : decode_utf8_str
        (encodeLenPrefixed e.1 ++ e.2 :: (es.map encodeSubEntry).flatten) =
        .ok (e.1, e.2 :: (es.map encodeSubEntry).flatten) := by
      simpa using decode_utf8_str_encode e.1
        ([e.2] ++ (es.map encodeSubEntry).flatten) hlen hv
    simp only [List.map_cons, List.flatten_cons, encodeSubEntry]
    rw [List.append_assoc, List.singleton_append]
    rw [subscribe_filters]
    rw [if_pos (by simp [encodeLenPrefixed, remaining])]
    split
    next heq => rw [hdec2] at heq; exact absurd heq (by simp)
    next e1 heq => rw [hdec2] at heq; exact absurd heq (by simp)
    next topic src1 heq =>
      rw [hdec2] at heq
      simp only [DResult.ok.injEq, Prod.mk.injEq] at heq
      obtain ⟨h1, h2⟩ := heq
      subst h1
      subst h2
      rw [if_pos (by simp [remaining])]
      split
      next heq8 => rw [get_u8_cons] at heq8; exact absurd heq8 (by simp)
      next b src2 heq8 =>
        rw [get_u8_cons] at heq8
        simp only [Option.some.injEq, Prod.mk.injEq] at heq8
        obtain ⟨h3, h4⟩ := heq8
        subst h3
        subst h4
        simp only [hrest, List.map_cons]

theorem unsubscribe_filters_encode (filters : List (List Nat))
    (h : ∀ t ∈ filters, t.length < 65536 ∧ utf8Valid t = true) :
    unsubscribe_filters (filters.map encodeLenPrefixed).flatten =
      .ok (filters, []) := by
  induction filters with
  | nil =>
    rw [unsubscribe_filters]
    simp [remaining]
  | cons t ts ih =>
    obtain ⟨hlen, hv⟩ := h t (by simp)
    have hrest := ih (fun x hx => h x (by simp [hx]))
    have hdec := decode_utf8_str_encode t (ts.map encodeLenPrefixed).flatten hlen hv
    simp only [List.map_cons, List.flatten_cons]
    rw [unsubscribe_filters]
    rw [if_pos (by simp [encodeLenPrefixed, remaining])]
    split
    next heq => rw [hdec] at heq; exact absurd heq (by simp)
    next e1 heq => rw [hdec] at heq; exact absurd heq (by simp)
    next topic src1 heq =>
      rw [hdec] at heq
      simp only [DResult.ok.injEq, Prod.mk.injEq] at heq
      obtain ⟨h1, h2⟩ := heq
      subst h1
      subst h2
      simp only [hrest]

/-- Claim C8: the Subscribe, Unsubscribe and SubscribeAck decoders produce
their lists in exactly the order the entries' bytes appear in the payload
window, with the list length determined solely by exhausting the window (the
whole window is consumed, the leftover cursor is empty, and there is no count
field); for SubscribeAck each status byte 0x80 maps to `Failure` and any other
byte to `Success` of its low 2 bits. -/
theorem C8_list_order_window (b0 b1 : Nat) (header : FixedHeader) :
    (∀ entries : List (List Nat × Nat), header.packet_flags = 0b0010 →
      (∀ e ∈ entries, e.1.length < 65536 ∧ utf8Valid e.1 = true) →
      decode_subscribe_packet (b0 :: b1 :: (entries.map encodeSubEntry).flatten)
          header =
        .ok (.Subscribe (b0 * 256 + b1)
          (entries.map fun e => (e.1, QoS.fromNat (e.2 % 4))), [])) ∧
    (∀ filters : List (List Nat), header.packet_flags = 0b0010 →
      (∀ t ∈ filters, t.length < 65536 ∧ utf8Valid t = true) →
      decode_unsubscribe_packet (b0 :: b1 :: (filters.map encodeLenPrefixed).flatten)
          header =
        .ok (.Unsubscribe (b0 * 256 + b1) filters, [])) ∧
    (∀ codes : List Nat, header.packet_flags % 16 = 0 →
      decode_subscribe_ack_packet (b0 :: b1 :: codes) header =
        .ok (.SubscribeAck (b0 * 256 + b1) (codes.map specSubAckStatus), [])) := by
  refine ⟨?_, ?_, ?_⟩
  · intro entries hf h
    unfold decode_subscribe_packet
    rw [if_neg (not_not_intro hf)]
    simp only [read_u16_cons, subscribe_filters_encode entries h]
  · intro filters hf h
    unfold decode_unsubscribe_packet
    rw [if_neg (not_not_intro hf)]
    simp only [read_u16_cons, unsubscribe_filters_encode filters h]
  · intro codes hf
    unfold decode_subscribe_ack_packet
    rw [if_neg (not_not_intro hf)]
    simp only [read_u16_cons]
    rfl

/-- Witness for C8 at the crate's test vectors: the two Subscribe entries
("test", QoS 1) and ("filter", QoS 2), and the SubscribeAck status bytes
`01 80 02`. -/
theorem C8_list_order_window_witness :
    decode_subscribe_packet
        [0x12, 0x34, 0x00, 0x04, 116, 101, 115, 116, 0x01,
          0x00, 0x06, 102, 105, 108, 116, 101, 114, 0x02] ⟨8, 2, 18⟩ =
      .ok (.Subscribe 0x1234
        [([116, 101, 115, 116], .AtLeastOnce),
          ([102, 105, 108, 116, 101, 114], .ExactlyOnce)], []) ∧
    decode_subscribe_ack_packet [0x12, 0x34, 0x01, 0x80, 0x02] ⟨9, 0, 5⟩ =
      .ok (.SubscribeAck 0x1234
        [.Success .AtLeastOnce, .Failure, .Success .ExactlyOnce], []) := by
  constructor
  · have h := (C8_list_order_window 0x12 0x34 ⟨8, 2, 18⟩).1
      [([116, 101, 115, 116], 1), ([102, 105, 108, 116, 101, 114], 2)] rfl (by decide)
    simpa [encodeSubEntry, encodeLenPrefixed, QoS.fromNat] using h
  · have h := (C8_list_order_window 0x12 0x34 ⟨9, 0, 5⟩).2.2 [0x01, 0x80, 0x02] rfl
    simpa [specSubAckStatus, QoS.fromNat] using h

theorem decode_connect_fields_ne_panic (level flags keep_alive : Nat) (src : List Nat) :
    decode_connect_fields level flags keep_alive src ≠ .panic := by
  unfold decode_connect_fields
  cases hcid : decode_utf8_str src with
  | panic => exact absurd hcid (decode_utf8_str_ne_panic src)
  | err e => simp
  | ok rcid =>
    obtain ⟨cid, s1⟩ := rcid
    simp only []
    by_cases hguard : cid = [] ∧ ¬ checkFlag flags ConnectFlags.CLEAN_SESSION = true
    · rw [if_pos hguard]; simp
    · rw [if_neg hguard]
      cases htp : optionalField (checkFlag flags ConnectFlags.WILL) decode_utf8_str s1 with
      | panic => exact absurd htp (optionalField_ne_panic _ _ _ decode_utf8_str_ne_panic)
      | err e => simp
      | ok rtp =>
        obtain ⟨topic, s2⟩ := rtp
        simp only []
        cases hmsg : optionalField (checkFlag flags ConnectFlags.WILL)
            decode_length_bytes s2 with
        | panic =>
          exact absurd hmsg (optionalField_ne_panic _ _ _ decode_length_bytes_ne_panic)
        | err e => simp
        | ok rmsg =>
          obtain ⟨message, s3⟩ := rmsg
          simp only []
          cases hun : optionalField (checkFlag flags ConnectFlags.USERNAME)
              decode_utf8_str s3 with
          | panic => exact absurd hun (optionalField_ne_panic _ _ _ decode_utf8_str_ne_panic)
          | err e => simp
          | ok run =>
            obtain ⟨username, s4⟩ := run
            simp only []
            cases hpw : optionalField (checkFlag flags ConnectFlags.PASSWORD)
                decode_length_bytes s4 with
            | panic =>
              exact absurd hpw (optionalField_ne_panic _ _ _ decode_length_bytes_ne_panic)
            | err e => simp
            | ok rpw =>
              obtain ⟨password, s5⟩ := rpw
              simp only []
              obtain ⟨ho1, _, _⟩ := optionalField_ok htp
              obtain ⟨hm1, _, _⟩ := optionalField_ok hmsg
              cases topic with
              | some t =>
                have hcond := ho1.mp (by simp)
                have hsome := hm1.mpr hcond
                cases message with
                | none => simp at hsome
                | some m => simp
              | none => simp

theorem decode_connect_packet_ne_panic (src : List Nat) (header : FixedHeader) :
    decode_connect_packet src header ≠ .panic := by
  by_cases hfl : header.packet_flags % 16 = 0
  · by_cases hlen : 10 ≤ remaining src
    · rcases src with _ | ⟨b0, src⟩
      · simp [remaining] at hlen
      rcases src with _ | ⟨b1, src⟩
      · simp [remaining] at hlen
      rcases src with _ | ⟨m0, src⟩
      · simp [remaining] at hlen
      rcases src with _ | ⟨m1, src⟩
      · simp [remaining] at hlen
      rcases src with _ | ⟨m2, src⟩
      · simp [remaining] at hlen
      rcases src with _ | ⟨m3, src⟩
      · simp [remaining] at hlen
      rcases src with _ | ⟨lvl, src⟩
      · simp [remaining] at hlen
      rcases src with _ | ⟨fl, src⟩
      · simp [remaining] at hlen
      rcases src with _ | ⟨k0, src⟩
      · simp [remaining] at hlen
      rcases src with _ | ⟨k1, rest⟩
      · simp [remaining] at hlen
      rw [decode_connect_packet_cons _ _ _ _ _ _ _ _ _ _ _ _ hfl]
      by_cases h1 : b0 * 256 + b1 = 4 ∧ [m0, m1, m2, m3] = mqttName
      · rw [if_neg (not_not_intro h1)]
        by_cases h2 : lvl = DEFAULT_MQTT_LEVEL
        · rw [if_neg (not_not_intro h2)]
          by_cases h3 : fl % 2 = 0
          · rw [if_neg (not_not_intro h3)]
            exact decode_connect_fields_ne_panic _ _ _ _
          · rw [if_pos h3]; simp
        · rw [if_pos h2]; simp
      · rw [if_pos h1]; simp
    · unfold decode_connect_packet
      rw [if_neg (not_not_intro hfl), if_pos hlen]
      simp
  · unfold decode_connect_packet
    rw [if_pos hfl]
    simp

theorem decode_connect_ack_packet_ne_panic (src : List Nat) (header : FixedHeader) :
    decode_connect_ack_packet src header ≠ .panic := by
  unfold decode_connect_ack_packet
  by_cases hfl : header.packet_flags % 16 = 0
  · rw [if_neg (not_not_intro hfl)]
    by_cases h2 : 2 ≤ remaining src
    · rw [if_neg (not_not_intro h2)]
      rcases src with _ | ⟨a, src⟩
      · simp [remaining] at h2
      rcases src with _ | ⟨b, src⟩
      · simp [remaining] at h2
      simp only [get_u8_cons]
      by_cases hres : a &&& 254 = 0
      · rw [if_neg (not_not_intro hres)]
        simp [get_u8_cons]
      · rw [if_pos hres]; simp
    · rw [if_pos h2]; simp
  · rw [if_pos hfl]; simp

theorem decode_publish_packet_ne_panic (src : List Nat) (header : FixedHeader) :
    decode_publish_packet src header ≠ .panic := by
  unfold decode_publish_packet
  cases hts : decode_utf8_str src with
  | panic => exact absurd hts (decode_utf8_str_ne_panic src)
  | err e => simp
  | ok r =>
    obtain ⟨t, s1⟩ := r
    simp only []
    have htake1 : take s1 (remaining s1) = some (s1, []) := by simp [take, remaining]
    by_cases hq : QoS.fromNat (header.packet_flags / 2 % 4) = QoS.AtMostOnce
    · rw [if_pos hq, htake1]; simp
    · rw [if_neg hq]
      cases hr : read_u16 s1 with
      | panic => exact absurd hr (read_u16_ne_panic s1)
      | err e => simp
      | ok r2 =>
        obtain ⟨pid, s2⟩ := r2
        simp only []
        have htake2 : take s2 (remaining s2) = some (s2, []) := by simp [take, remaining]
        rw [htake2]
        simp

theorem decode_publish_ack_packet_ne_panic (src : List Nat) (header : FixedHeader) :
    decode_publish_ack_packet src header ≠ .panic := by
  unfold decode_publish_ack_packet
  by_cases hfl : header.packet_flags % 16 = 0
  · rw [if_neg (not_not_intro hfl)]
    cases hr : read_u16 src with
    | panic => exact absurd hr (read_u16_ne_panic src)
    | err e => simp
    | ok r => obtain ⟨pid, s⟩ := r; simp
  · rw [if_pos hfl]; simp

theorem decode_publish_rec_packet_ne_panic (src : List Nat) (header : FixedHeader) :
    decode_publish_rec_packet src header ≠ .panic := by
  unfold decode_publish_rec_packet
  by_cases hfl : header.packet_flags % 16 = 0
  · rw [if_neg (not_not_intro hfl)]
    cases hr : read_u16 src with
    | panic => exact absurd hr (read_u16_ne_panic src)
    | err e => simp
    | ok r => obtain ⟨pid, s⟩ := r; simp
  · rw [if_pos hfl]; simp

theorem decode_publish_rel_packet_ne_panic (src : List Nat) (header : FixedHeader) :
    decode_publish_rel_packet src header ≠ .panic := by
  unfold decode_publish_rel_packet
  by_cases hfl : header.packet_flags = 0b0010
  · rw [if_neg (not_not_intro hfl)]
    cases hr : read_u16 src with
    | panic => exact absurd hr (read_u16_ne_panic src)
    | err e => simp
    | ok r => obtain ⟨pid, s⟩ := r; simp
  · rw [if_pos hfl]; simp

theorem decode_publish_comp_packet_ne_panic (src : List Nat) (header : FixedHeader) :
    decode_publish_comp_packet src header ≠ .panic := by
  unfold decode_publish_comp_packet
  by_cases hfl : header.packet_flags % 16 = 0
  · rw [if_neg (not_not_intro hfl)]
    cases hr : read_u16 src with
    | panic => exact absurd hr (read_u16_ne_panic src)
    | err e => simp
    | ok r => obtain ⟨pid, s⟩ := r; simp
  · rw [if_pos hfl]; simp

theorem subscribe_filters_ne_panic (src : List Nat) : subscribe_filters src ≠ .panic := by
  have H : ∀ n (s : List Nat), s.length ≤ n → subscribe_filters s ≠ .panic := by
    intro n
    induction n with
    | zero =>
      intro s hs
      rw [subscribe_filters]
      rw [if_neg (by simp only [remaining]; omega)]
      simp
    | succ n ih =>
      intro s hs
      rw [subscribe_filters]
      by_cases h0 : 0 < remaining s
      · rw [if_pos h0]
        split
        next heq => exact absurd heq (decode_utf8_str_ne_panic s)
        next e heq => simp
        next topic src1 heq =>
          by_cases h1 : 1 ≤ remaining src1
          · rw [if_pos h1]
            split
            next heq8 =>
              unfold get_u8 at heq8
              rw [if_pos (by simpa [remaining] using h1)] at heq8
              exact absurd heq8 (by simp)
            next b src2 heq8 =>
              unfold get_u8 at heq8
              rw [if_pos (by simpa [remaining] using h1)] at heq8
              simp only [Option.some.injEq, Prod.mk.injEq] at heq8
              obtain ⟨hd1, hd2, hd3, _⟩ :=
                decode_utf8_str_ok heq
              have hlen1 : src1.length = s.length - (2 + topic.length) := by
                rw [hd3]; simp
              have hlen2 : src2.length = src1.length - 1 := by
                rw [← heq8.2]; simp
              cases hr : subscribe_filters src2 with
              | panic =>
                refine absurd hr (ih src2 ?_)
                simp only [remaining] at hs h0
                omega
              | err e => simp
              | ok r =>
                obtain ⟨rest, src3⟩ := r
                simp
          · rw [if_neg h1]; simp
      · rw [if_neg h0]; simp
  exact H src.length src le_rfl

theorem unsubscribe_filters_ne_panic (src : List Nat) :
    unsubscribe_filters src ≠ .panic := by
  have H : ∀ n (s : List Nat), s.length ≤ n → unsubscribe_filters s ≠ .panic := by
    intro n
    induction n with
    | zero =>
      intro s hs
      rw [unsubscribe_filters]
      rw [if_neg (by simp only [remaining]; omega)]
      simp
    | succ n ih =>
      intro s hs
      rw [unsubscribe_filters]
      by_cases h0 : 0 < remaining s
      · rw [if_pos h0]
        split
        next heq => exact absurd heq (decode_utf8_str_ne_panic s)
        next e heq => simp
        next topic src1 heq =>
          obtain ⟨hd1, hd2, hd3, _⟩ := decode_utf8_str_ok heq
          have hlen1 : src1.length = s.length - (2 + topic.length) := by
            rw [hd3]; simp
          cases hr : unsubscribe_filters src1 with
          | panic =>
            refine absurd hr (ih src1 ?_)
            simp only [remaining] at hs h0
            omega
          | err e => simp
          | ok r =>
            obtain ⟨rest, src2⟩ := r
            simp
      · rw [if_neg h0]; simp
  exact H src.length src le_rfl

theorem decode_subscribe_packet_ne_panic (src : List Nat) (header : FixedHeader) :
    decode_subscribe_packet src header ≠ .panic := by
  unfold decode_subscribe_packet
  by_cases hfl : header.packet_flags = 0b0010
  · rw [if_neg (not_not_intro hfl)]
    cases hr : read_u16 src with
    | panic => exact absurd hr (read_u16_ne_panic src)
    | err e => simp
    | ok r =>
      obtain ⟨pid, s⟩ := r
      simp only []
      cases hl : subscribe_filters s with
      | panic => exact absurd hl (subscribe_filters_ne_panic s)
      | err e => simp
      | ok r2 => obtain ⟨fs, s2⟩ := r2; simp
  · rw [if_pos hfl]; simp

theorem decode_subscribe_ack_packet_ne_panic (src : List Nat) (header : FixedHeader) :
    decode_subscribe_ack_packet src header ≠ .panic := by
  unfold decode_subscribe_ack_packet
  by_cases hfl : header.packet_flags % 16 = 0
  · rw [if_neg (not_not_intro hfl)]
    cases hr : read_u16 src with
    | panic => exact absurd hr (read_u16_ne_panic src)
    | err e => simp
    | ok r => obtain ⟨pid, s⟩ := r; simp
  · rw [if_pos hfl]; simp

theorem decode_unsubscribe_packet_ne_panic (src : List Nat) (header : FixedHeader) :
    decode_unsubscribe_packet src header ≠ .panic := by
  unfold decode_unsubscribe_packet
  by_cases hfl : header.packet_flags = 0b0010
  · rw [if_neg (not_not_intro hfl)]
    cases hr : read_u16 src with
    | panic => exact absurd hr (read_u16_ne_panic src)
    | err e => simp
    | ok r =>
      obtain ⟨pid, s⟩ := r
      simp only []
      cases hl : unsubscribe_filters s with
      | panic => exact absurd hl (unsubscribe_filters_ne_panic s)
      | err e => simp
      | ok r2 => obtain ⟨fs, s2⟩ := r2; simp
  · rw [if_pos hfl]; simp

theorem decode_unsubscribe_ack_packet_ne_panic (src : List Nat) (header : FixedHeader) :
    decode_unsubscribe_ack_packet src header ≠ .panic := by
  unfold decode_unsubscribe_ack_packet
  by_cases hfl : header.packet_flags % 16 = 0
  · rw [if_neg (not_not_intro hfl)]
    cases hr : read_u16 src with
    | panic => exact absurd hr (read_u16_ne_panic src)
    | err e => simp
    | ok r => obtain ⟨pid, s⟩ := r; simp
  · rw [if_pos hfl]; simp

theorem read_packet_ne_panic (src : List Nat) (header : FixedHeader) :
    read_packet src header ≠ .panic := by
  intro hcontra
  unfold read_packet at hcontra
  by_cases h1 : header.packet_type = CONNECT
  · rw [if_pos h1] at hcontra
    exact absurd hcontra (decode_connect_packet_ne_panic _ _)
  rw [if_neg h1] at hcontra
  by_cases h2 : header.packet_type = CONNACK
  · rw [if_pos h2] at hcontra
    exact absurd hcontra (decode_connect_ack_packet_ne_panic _ _)
  rw [if_neg h2] at hcontra
  by_cases h3 : header.packet_type = PUBLISH
  · rw [if_pos h3] at hcontra
    exact absurd hcontra (decode_publish_packet_ne_panic _ _)
  rw [if_neg h3] at hcontra
  by_cases h4 : header.packet_type = PUBACK
  · rw [if_pos h4] at hcontra
    exact absurd hcontra (decode_publish_ack_packet_ne_panic _ _)
  rw [if_neg h4] at hcontra
  by_cases h5 : header.packet_type = PUBREC
  · rw [if_pos h5] at hcontra
    exact absurd hcontra (decode_publish_rec_packet_ne_panic _ _)
  rw [if_neg h5] at hcontra
  by_cases h6 : header.packet_type = PUBREL
  · rw [if_pos h6] at hcontra
    exact absurd hcontra (decode_publish_rel_packet_ne_panic _ _)
  rw [if_neg h6] at hcontra
  by_cases h7 : header.packet_type = PUBCOMP
  · rw [if_pos h7] at hcontra
    exact absurd hcontra (decode_publish_comp_packet_ne_panic _ _)
  rw [if_neg h7] at hcontra
  by_cases h8 : header.packet_type = SUBSCRIBE
  · rw [if_pos h8] at hcontra
    exact absurd hcontra (decode_subscribe_packet_ne_panic _ _)
  rw [if_neg h8] at hcontra
  by_cases h9 : header.packet_type = SUBACK
  · rw [if_pos h9] at hcontra
    exact absurd hcontra (decode_subscribe_ack_packet_ne_panic _ _)
  rw [if_neg h9] at hcontra
  by_cases h10 : header.packet_type = UNSUBSCRIBE
  · rw [if_pos h10] at hcontra
    exact absurd hcontra (decode_unsubscribe_packet_ne_panic _ _)
  rw [if_neg h10] at hcontra
  by_cases h11 : header.packet_type = UNSUBACK
  · rw [if_pos h11] at hcontra
    exact absurd hcontra (decode_unsubscribe_ack_packet_ne_panic _ _)
  rw [if_neg h11] at hcontra
  by_cases h12 : header.packet_type = PINGREQ
  · rw [if_pos h12] at hcontra
    by_cases hp : header.packet_flags % 16 = 0
    · rw [if_neg (not_not_intro hp)] at hcontra
      simp at hcontra
    · rw [if_pos hp] at hcontra
      simp at hcontra
  rw [if_neg h12] at hcontra
  by_cases h13 : header.packet_type = PINGRESP
  · rw [if_pos h13] at hcontra
    by_cases hp : header.packet_flags % 16 = 0
    · rw [if_neg (not_not_intro hp)] at hcontra
      simp at hcontra
    · rw [if_pos hp] at hcontra
      simp at hcontra
  rw [if_neg h13] at hcontra
  by_cases h14 : header.packet_type = DISCONNECT
  · rw [if_pos h14] at hcontra
    by_cases hp : header.packet_flags % 16 = 0
    · rw [if_neg (not_not_intro hp)] at hcontra
      simp at hcontra
    · rw [if_pos hp] at hcontra
      simp at hcontra
  rw [if_neg h14] at hcontra
  simp at hcontra

/-- Claim C9: `read_packet` and `decode_variable_length` are total and never
panic on any input window and header: `read_packet` never reaches a panicking
buffer access (every `take`, `get_u8`, `get_u16_be` and slice index is guarded
by a remaining-length check); `decode_variable_length` always returns an error
or a value; `read_u16` and `decode_length_bytes` return `InvalidLength` instead
of reading past the window; and `take` succeeds whenever `n` is at most the
bytes remaining. -/
theorem C9_total_no_panic :
    (∀ src header, read_packet src header ≠ .panic) ∧
    (∀ src, (∃ e, decode_variable_length src = .error e) ∨
      ∃ v, decode_variable_length src = .ok v) ∧
    (∀ src, read_u16 src ≠ .panic) ∧
    (∀ src, decode_length_bytes src ≠ .panic) ∧
    (∀ src n, n ≤ remaining src → take src n ≠ none) := by
  refine ⟨read_packet_ne_panic, ?_, read_u16_ne_panic, decode_length_bytes_ne_panic, ?_⟩
  · intro src
    cases hd : decode_variable_length src with
    | error e => exact Or.inl ⟨e, rfl⟩
    | ok v => exact Or.inr ⟨v, rfl⟩
  · intro src n h
    unfold take
    rw [if_pos (by simpa [remaining] using h)]
    simp

/-- Witness for C9: `take` succeeds on a concrete in-bounds slice request. -/
theorem C9_total_no_panic_witness : take [1, 2, 3] 2 ≠ none :=
  C9_total_no_panic.2.2.2.2 [1, 2, 3] 2 (by decide)

/-- Claim C10: `read_packet` never checks that the payload window is fully
consumed: for the empty-body types (PingRequest, PingResponse, Disconnect) any
window decodes to `Ok` with the whole window left unread, and for the
packet-id-only acks (PublishAck, UnsubscribeAck) a window with extra bytes
after the 2-byte packet id decodes to `Ok` with those bytes left unread,
rather than producing an error. -/
theorem C10_trailing_bytes_accepted (src : List Nat) (rl : Nat) :
    read_packet src ⟨PINGREQ, 0, rl⟩ = .ok (.PingRequest, src) ∧
    read_packet src ⟨PINGRESP, 0, rl⟩ = .ok (.PingResponse, src) ∧
    read_packet src ⟨DISCONNECT, 0, rl⟩ = .ok (.Disconnect, src) ∧
    (∀ b0 b1 rest, src = b0 :: b1 :: rest →
      read_packet src ⟨PUBACK, 0, rl⟩ = .ok (.PublishAck (b0 * 256 + b1), rest) ∧
      read_packet src ⟨UNSUBACK, 0, rl⟩ =
        .ok (.UnsubscribeAck (b0 * 256 + b1), rest)) := by
  refine ⟨?_, ?_, ?_, ?_⟩
  · simp [read_packet, CONNECT, CONNACK, PUBLISH, PUBACK, PUBREC, PUBREL, PUBCOMP,
      SUBSCRIBE, SUBACK, UNSUBSCRIBE, UNSUBACK, PINGREQ, PINGRESP, DISCONNECT]
  · simp [read_packet, CONNECT, CONNACK, PUBLISH, PUBACK, PUBREC, PUBREL, PUBCOMP,
      SUBSCRIBE, SUBACK, UNSUBSCRIBE, UNSUBACK, PINGREQ, PINGRESP, DISCONNECT]
  · simp [read_packet, CONNECT, CONNACK, PUBLISH, PUBACK, PUBREC, PUBREL, PUBCOMP,
      SUBSCRIBE, SUBACK, UNSUBSCRIBE, UNSUBACK, PINGREQ, PINGRESP, DISCONNECT]
  · intro b0 b1 rest hsrc
    subst hsrc
    constructor
    · simp [read_packet, CONNECT, CONNACK, PUBLISH, PUBACK, PUBREC, PUBREL, PUBCOMP,
        SUBSCRIBE, SUBACK, UNSUBSCRIBE, UNSUBACK, PINGREQ, PINGRESP, DISCONNECT,
        decode_publish_ack_packet, read_u16_cons]
    · simp [read_packet, CONNECT, CONNACK, PUBLISH, PUBACK, PUBREC, PUBREL, PUBCOMP,
        SUBSCRIBE, SUBACK, UNSUBSCRIBE, UNSUBACK, PINGREQ, PINGRESP, DISCONNECT,
        decode_unsubscribe_ack_packet, read_u16_cons]

/-- Witness for C10: a PingRequest with a 2-byte garbage window and a
PublishAck with one trailing byte both decode successfully, leaving the extra
bytes unread. -/
theorem C10_trailing_bytes_accepted_witness :
    read_packet [9, 9] ⟨12, 0, 2⟩ = .ok (.PingRequest, [9, 9]) ∧
    read_packet [0x43, 0x21, 99] ⟨4, 0, 3⟩ = .ok (.PublishAck 0x4321, [99]) := by
  constructor
  · exact (C10_trailing_bytes_accepted [9, 9] 2).1
  · have h := ((C10_trailing_bytes_accepted [0x43, 0x21, 99] 3).2.2.2
      0x43 0x21 [99] rfl).1
    norm_num at h
    exact h

end Mqtt
